import Mathlib

/-!
Shallow embedding of `otv_flight_dynamics.py`: an orbital-transfer-vehicle
design tool.  Python floats are modelled as real numbers; Python's `math`
functions become their Mathlib counterparts; the two search loops become
`List.foldl`; the "no solution" outcome of the LTAN solver becomes `Option`.
Python's float `%` with a positive modulus is `x - m * ⌊x / m⌋`.
-/

noncomputable section

open Real

/-- Earth's standard gravitational parameter, km^3/s^2 (source constant `MU_EARTH`). -/
def MU_EARTH : ℝ := 398600.4418

/-- Earth's radius in km (source constant `R_EARTH`). -/
def R_EARTH : ℝ := 6371.0

/-- J2 zonal harmonic coefficient used by `ltan_drift_adjustment`. -/
def J2 : ℝ := 1.08263e-3

/-- `math.radians`: degrees to radians. -/
def radians (x : ℝ) : ℝ := x * (π / 180)

/-- `math.degrees`: radians to degrees. -/
def degrees (x : ℝ) : ℝ := x * (180 / π)

/-- Python float `%` with the given modulus: `x - m * floor (x / m)`. -/
def pymod (x m : ℝ) : ℝ := x - m * (⌊x / m⌋ : ℤ)

/-- `orbital_velocity(radius) = sqrt(MU_EARTH / radius)`. -/
def orbital_velocity (radius : ℝ) : ℝ := Real.sqrt (MU_EARTH / radius)

/-- `hohmann_delta_v(r1, r2)`: two burn magnitudes of the Hohmann transfer
(the source also computes `a_transfer`, which is unused). -/
def hohmann_delta_v (r1 r2 : ℝ) : ℝ :=
  |Real.sqrt (2 * MU_EARTH * r2 / (r1 * (r1 + r2))) - orbital_velocity r1| +
    |orbital_velocity r2 - Real.sqrt (2 * MU_EARTH * r1 / (r2 * (r1 + r2)))|

/-- `bielliptic_delta_v(r1, r2, r_b)`: three burn magnitudes of the
bi-elliptic transfer through intermediate apoapsis `r_b`. -/
def bielliptic_delta_v (r1 r2 r_b : ℝ) : ℝ :=
  |Real.sqrt (2 * MU_EARTH * r_b / (r1 * (r1 + r_b))) - orbital_velocity r1| +
    |Real.sqrt (2 * MU_EARTH * r2 / (r_b * (r2 + r_b))) -
      Real.sqrt (2 * MU_EARTH * r1 / (r_b * (r1 + r_b)))| +
    |orbital_velocity r2 - Real.sqrt (2 * MU_EARTH * r_b / (r2 * (r2 + r_b)))|

/-- Result record of `choose_transfer`. -/
structure TransferPlan where
  method : String
  delta_v_kms : ℝ

/-- The bi-elliptic costs evaluated by `choose_transfer`, in loop order:
multipliers `[2, 5, 10]` of `max r1 r2`. -/
def bielliptic_candidates (r1 r2 : ℝ) : List ℝ :=
  [2, 5, 10].map fun m => bielliptic_delta_v r1 r2 (m * max r1 r2)

/-- The `best_bielliptic_dv` loop: starting from `float('inf')` (modelled as
`none`), keep the value on a strict improvement. -/
def runMin (acc : Option ℝ) (dvs : List ℝ) : Option ℝ :=
  dvs.foldl
    (fun best dv =>
      match best with
      | none => some dv
      | some b => if dv < b then some dv else some b)
    acc

/-- `choose_transfer(initial_altitude_km, final_altitude_km)`. -/
def choose_transfer (initial_altitude_km final_altitude_km : ℝ) : TransferPlan :=
  let r1 := R_EARTH + initial_altitude_km
  let r2 := R_EARTH + final_altitude_km
  let dv_hohmann := hohmann_delta_v r1 r2
  match runMin none (bielliptic_candidates r1 r2) with
  | none => { method := "hohmann", delta_v_kms := dv_hohmann }
  | some best =>
      if best < dv_hohmann then { method := "bi-elliptic", delta_v_kms := best }
      else { method := "hohmann", delta_v_kms := dv_hohmann }

/-- `inclination_change_delta_v(altitude_km, delta_inclination_deg)`. -/
def inclination_change_delta_v (altitude_km delta_inclination_deg : ℝ) : ℝ :=
  2 * orbital_velocity (R_EARTH + altitude_km) * Real.sin (radians delta_inclination_deg / 2)

/-- Result record of `ltan_drift_adjustment` when a feasible candidate exists. -/
structure LTANSolution where
  new_altitude_km : ℕ
  new_inclination_deg : ℝ
  total_delta_v_kms : ℝ
  required_drift_deg_per_day : ℝ
  duration_days : ℝ

/-- `delta_ltan_deg` after normalisation: `(((tf - ti) * 15) + 180) % 360 - 180`. -/
def normalized_ltan_delta (initial_ltan_hours target_ltan_hours : ℝ) : ℝ :=
  pymod ((target_ltan_hours - initial_ltan_hours) * 15 + 180) 360 - 180

/-- `required_drift_rate = delta_ltan_deg / duration_days` (deg/day). -/
def required_drift_rate (initial_ltan_hours target_ltan_hours duration_days : ℝ) : ℝ :=
  normalized_ltan_delta initial_ltan_hours target_ltan_hours / duration_days

/-- The J2 nodal-drift coefficient at candidate altitude `h`:
`-1.5 * J2 * R^2 * n / a^2` with `a = R + h`, `n = sqrt(mu / a^3)`. -/
def drift_factor (h : ℝ) : ℝ :=
  -1.5 * J2 * R_EARTH ^ 2 * Real.sqrt (MU_EARTH / (R_EARTH + h) ^ 3) / (R_EARTH + h) ^ 2

/-- `cos_i` at candidate altitude `h`: the required drift rate converted to
rad/s, divided by the drift factor. -/
def cos_i_at (rate h : ℝ) : ℝ := (radians rate / 86400) / drift_factor h

/-- The candidate's total cost: Hohmann transfer from the current radius plus
the plane change relative to the 98.6 degree reference inclination. -/
def candidate_cost (initial_altitude_km rate : ℝ) (h : ℕ) : ℝ :=
  hohmann_delta_v (R_EARTH + initial_altitude_km) (R_EARTH + (h : ℝ)) +
    inclination_change_delta_v (h : ℝ)
      (degrees |Real.arccos (cos_i_at rate (h : ℝ)) - radians 98.6|)

/-- The solution record built for a feasible candidate altitude `h`. -/
def mkLTANSolution (initial_altitude_km rate duration_days : ℝ) (h : ℕ) : LTANSolution :=
  { new_altitude_km := h
    new_inclination_deg := degrees (Real.arccos (cos_i_at rate (h : ℝ)))
    total_delta_v_kms := candidate_cost initial_altitude_km rate h
    required_drift_deg_per_day := rate
    duration_days := duration_days }

/-- One iteration of the altitude loop: skip an infeasible candidate, keep a
feasible one when it strictly improves the best total delta-v so far
(`none` models `best_solution = None`, `min_dv = inf`). -/
def ltan_step (initial_altitude_km rate duration_days : ℝ)
    (best : Option LTANSolution) (h : ℕ) : Option LTANSolution :=
  if |cos_i_at rate (h : ℝ)| ≤ 1 then
    match best with
    | none => some (mkLTANSolution initial_altitude_km rate duration_days h)
    | some b =>
        if candidate_cost initial_altitude_km rate h < b.total_delta_v_kms then
          some (mkLTANSolution initial_altitude_km rate duration_days h)
        else some b
  else best

/-- The altitude grid `range(400, 900, 5)`: 400, 405, ..., 895. -/
def ltan_grid : List ℕ := List.range' 400 100 5

/-- `ltan_drift_adjustment(initial_ltan_hours, target_ltan_hours,
initial_altitude_km, duration_days)`. -/
def ltan_drift_adjustment
    (initial_ltan_hours target_ltan_hours initial_altitude_km duration_days : ℝ) :
    Option LTANSolution :=
  ltan_grid.foldl
    (ltan_step initial_altitude_km
      (required_drift_rate initial_ltan_hours target_ltan_hours duration_days)
      duration_days)
    none

/-- Result record of `otv_sizing`. -/
structure VehicleConfiguration where
  payload_mass_kg : ℝ
  structural_mass_kg : ℝ
  propellant_mass_kg : ℝ
  total_mass_kg : ℝ
  payload_fraction : ℝ
  propellant_fraction : ℝ
  structural_fraction : ℝ
  thrust_N : ℝ
  thrust_to_weight_ratio : ℝ
  isp_sec : ℝ

/-- `otv_sizing(payload_mass_kg, total_delta_v_kms, isp_sec,
structural_mass_fraction, thrust_to_weight_ratio)`. -/
def otv_sizing (payload_mass_kg total_delta_v_kms isp_sec structural_mass_fraction
    thrust_to_weight : ℝ) : VehicleConfiguration :=
  let g0 : ℝ := 9.80665
  let delta_v := total_delta_v_kms * 1000
  let dry_mass := payload_mass_kg / (1 - structural_mass_fraction)
  let m0 := dry_mass * Real.exp (delta_v / (isp_sec * g0))
  let propellant_mass := m0 - dry_mass
  let structural_mass := dry_mass - payload_mass_kg
  { payload_mass_kg := payload_mass_kg
    structural_mass_kg := structural_mass
    propellant_mass_kg := propellant_mass
    total_mass_kg := m0
    payload_fraction := payload_mass_kg / m0
    propellant_fraction := propellant_mass / m0
    structural_fraction := structural_mass / m0
    thrust_N := m0 * g0 * thrust_to_weight
    thrust_to_weight_ratio := thrust_to_weight
    isp_sec := isp_sec }

end

open Real

theorem pymod_nonneg (x m : ℝ) (hm : 0 < m) : 0 ≤ pymod x m := by
  have h := Int.fract_nonneg (x / m)
  have hfr : pymod x m = m * Int.fract (x / m) := by
    unfold pymod Int.fract
    field_simp
  rw [hfr]
  positivity

theorem pymod_lt (x m : ℝ) (hm : 0 < m) : pymod x m < m := by
  have h := Int.fract_lt_one (x / m)
  have hfr : pymod x m = m * Int.fract (x / m) := by
    unfold pymod Int.fract
    field_simp
  rw [hfr]
  calc m * Int.fract (x / m) < m * 1 := by
        exact mul_lt_mul_of_pos_left h hm
    _ = m := by ring

/-- C5: for all `r1, r2 > 0`, `hohmann_delta_v r1 r2 = hohmann_delta_v r2 r1`:
swapping the two radii yields the same total delta-v, since each burn term is
an absolute difference. -/
theorem hohmann_delta_v_symm (r1 r2 : ℝ) (h1 : 0 < r1) (h2 : 0 < r2) :
    hohmann_delta_v r1 r2 = hohmann_delta_v r2 r1 := by
  unfold hohmann_delta_v
  rw [add_comm r2 r1]
  rw [abs_sub_comm (orbital_velocity r2)]
  rw [abs_sub_comm (orbital_velocity r1)]
  ring

/-- Witness for C5 at `r1 = 7000`, `r2 = 8000`. -/
theorem hohmann_delta_v_symm_witness :
    (0 : ℝ) < 7000 ∧ (0 : ℝ) < 8000 ∧
      hohmann_delta_v 7000 8000 = hohmann_delta_v 8000 7000 :=
  ⟨by norm_num, by norm_num, hohmann_delta_v_symm 7000 8000 (by norm_num) (by norm_num)⟩

/-- C7: for payload mass > 0 and structural fraction < 1, the vehicle
configuration balances exactly: propellant + structural + payload mass equals
the total mass, and the three mass fractions sum to 1. -/
theorem otv_sizing_mass_balance (p dv isp sf tw : ℝ) (hp : 0 < p) (hsf : sf < 1) :
    (otv_sizing p dv isp sf tw).propellant_mass_kg +
        (otv_sizing p dv isp sf tw).structural_mass_kg +
        (otv_sizing p dv isp sf tw).payload_mass_kg =
      (otv_sizing p dv isp sf tw).total_mass_kg ∧
    (otv_sizing p dv isp sf tw).payload_fraction +
        (otv_sizing p dv isp sf tw).propellant_fraction +
        (otv_sizing p dv isp sf tw).structural_fraction = 1 := by
  have hsf1 : (0 : ℝ) < 1 - sf := by linarith
  have hdry : 0 < p / (1 - sf) := div_pos hp hsf1
  have hm0 : 0 < p / (1 - sf) * Real.exp (dv * 1000 / (isp * 9.80665)) :=
    mul_pos hdry (Real.exp_pos _)
  constructor
  · simp only [otv_sizing]
    ring
  · simp only [otv_sizing]
    field_simp
    ring

/-- Witness for C7 at payload 500 kg, delta-v 3 km/s, Isp 300 s, structural
fraction 0.1, thrust-to-weight 0.3. -/
theorem otv_sizing_mass_balance_witness :
    (0 : ℝ) < 500 ∧ (0.1 : ℝ) < 1 ∧
      ((otv_sizing 500 3 300 0.1 0.3).propellant_mass_kg +
          (otv_sizing 500 3 300 0.1 0.3).structural_mass_kg +
          (otv_sizing 500 3 300 0.1 0.3).payload_mass_kg =
        (otv_sizing 500 3 300 0.1 0.3).total_mass_kg ∧
      (otv_sizing 500 3 300 0.1 0.3).payload_fraction +
          (otv_sizing 500 3 300 0.1 0.3).propellant_fraction +
          (otv_sizing 500 3 300 0.1 0.3).structural_fraction = 1) :=
  ⟨by norm_num, by norm_num, otv_sizing_mass_balance 500 3 300 0.1 0.3 (by norm_num) (by norm_num)⟩

/-- C8: `inclination_change_delta_v h 0 = 0` for every altitude, and for an
altitude with positive orbital radius the delta-v is strictly increasing in
the inclination change over [0, 180] degrees. -/
theorem inclination_delta_v_zero_and_mono :
    (∀ h : ℝ, inclination_change_delta_v h 0 = 0) ∧
      ∀ h a b : ℝ, 0 < R_EARTH + h → 0 ≤ a → a < b → b ≤ 180 →
        inclination_change_delta_v h a < inclination_change_delta_v h b := by
  constructor
  · intro h
    simp [inclination_change_delta_v, radians]
  · intro h a b hr ha hab hb
    have hpi := Real.pi_pos
    have hv : 0 < orbital_velocity (R_EARTH + h) := by
      apply Real.sqrt_pos.mpr
      apply div_pos _ hr
      norm_num [MU_EARTH]
    have hx0 : 0 ≤ radians a / 2 := by
      unfold radians
      positivity
    have hy : radians b / 2 ≤ π / 2 := by
      unfold radians
      nlinarith
    have hxy : radians a / 2 < radians b / 2 := by
      unfold radians
      have hstep : a * (π / 180) < b * (π / 180) := by
        apply mul_lt_mul_of_pos_right hab
        positivity
      linarith
    have hhalf : (0 : ℝ) ≤ π / 2 := by positivity
    have hs : Real.sin (radians a / 2) < Real.sin (radians b / 2) :=
      Real.strictMonoOn_sin ⟨by linarith, by linarith⟩ ⟨by linarith, hy⟩ hxy
    unfold inclination_change_delta_v
    exact mul_lt_mul_of_pos_left hs (by positivity)

/-- Witness for C8 at altitude 500 km, inclination changes 30 and 60 degrees. -/
theorem inclination_delta_v_zero_and_mono_witness :
    inclination_change_delta_v 500 0 = 0 ∧
      inclination_change_delta_v 500 30 < inclination_change_delta_v 500 60 :=
  ⟨inclination_delta_v_zero_and_mono.1 500,
    inclination_delta_v_zero_and_mono.2 500 30 60 (by norm_num [R_EARTH]) (by norm_num)
      (by norm_num) (by norm_num)⟩

theorem if_lt_some_min (a b : ℝ) : (if a < b then some a else some b) = some (min a b) := by
  split_ifs with hc
  · rw [min_eq_left hc.le]
  · rw [min_eq_right (not_lt.mp hc)]

theorem runMin_candidates (r1 r2 : ℝ) :
    runMin none (bielliptic_candidates r1 r2) =
      some (min (bielliptic_delta_v r1 r2 (2 * max r1 r2))
        (min (bielliptic_delta_v r1 r2 (5 * max r1 r2))
          (bielliptic_delta_v r1 r2 (10 * max r1 r2)))) := by
  simp only [runMin, bielliptic_candidates, List.map_cons, List.map_nil, List.foldl_cons,
    List.foldl_nil]
  rw [if_lt_some_min]
  simp only []
  rw [if_lt_some_min]
  simp [min_comm, min_left_comm, min_assoc]

theorem choose_transfer_delta_eq (a1 a2 : ℝ) :
    (choose_transfer a1 a2).delta_v_kms =
      min (hohmann_delta_v (R_EARTH + a1) (R_EARTH + a2))
        (min (bielliptic_delta_v (R_EARTH + a1) (R_EARTH + a2) (2 * max (R_EARTH + a1) (R_EARTH + a2)))
          (min (bielliptic_delta_v (R_EARTH + a1) (R_EARTH + a2) (5 * max (R_EARTH + a1) (R_EARTH + a2)))
            (bielliptic_delta_v (R_EARTH + a1) (R_EARTH + a2) (10 * max (R_EARTH + a1) (R_EARTH + a2))))) := by
  simp only [choose_transfer, runMin_candidates]
  split_ifs with hlt
  · exact (min_eq_right hlt.le).symm
  · exact (min_eq_left (not_lt.mp hlt)).symm

theorem choose_transfer_method_eq (a1 a2 : ℝ) :
    (choose_transfer a1 a2).method =
      if min (bielliptic_delta_v (R_EARTH + a1) (R_EARTH + a2) (2 * max (R_EARTH + a1) (R_EARTH + a2)))
          (min (bielliptic_delta_v (R_EARTH + a1) (R_EARTH + a2) (5 * max (R_EARTH + a1) (R_EARTH + a2)))
            (bielliptic_delta_v (R_EARTH + a1) (R_EARTH + a2) (10 * max (R_EARTH + a1) (R_EARTH + a2)))) <
          hohmann_delta_v (R_EARTH + a1) (R_EARTH + a2)
      then "bi-elliptic" else "hohmann" := by
  simp only [choose_transfer, runMin_candidates]
  split_ifs with hlt <;> rfl

/-- C4: `choose_transfer` evaluates the Hohmann cost between the two radii,
the bi-elliptic cost at exactly the three intermediate apoapses
`m * max r1 r2` for `m` in {2, 5, 10}, keeps the minimum bi-elliptic cost,
and returns the cheaper of the two, tagged with its method name. -/
theorem choose_transfer_min_of_candidates (a1 a2 : ℝ) :
    (choose_transfer a1 a2).delta_v_kms =
      min (hohmann_delta_v (R_EARTH + a1) (R_EARTH + a2))
        (min (bielliptic_delta_v (R_EARTH + a1) (R_EARTH + a2) (2 * max (R_EARTH + a1) (R_EARTH + a2)))
          (min (bielliptic_delta_v (R_EARTH + a1) (R_EARTH + a2) (5 * max (R_EARTH + a1) (R_EARTH + a2)))
            (bielliptic_delta_v (R_EARTH + a1) (R_EARTH + a2) (10 * max (R_EARTH + a1) (R_EARTH + a2))))) ∧
    (choose_transfer a1 a2).method =
      if min (bielliptic_delta_v (R_EARTH + a1) (R_EARTH + a2) (2 * max (R_EARTH + a1) (R_EARTH + a2)))
          (min (bielliptic_delta_v (R_EARTH + a1) (R_EARTH + a2) (5 * max (R_EARTH + a1) (R_EARTH + a2)))
            (bielliptic_delta_v (R_EARTH + a1) (R_EARTH + a2) (10 * max (R_EARTH + a1) (R_EARTH + a2)))) <
          hohmann_delta_v (R_EARTH + a1) (R_EARTH + a2)
      then "bi-elliptic" else "hohmann" :=
  ⟨choose_transfer_delta_eq a1 a2, choose_transfer_method_eq a1 a2⟩

/-- C9: the returned delta-v never exceeds the Hohmann cost, and the method
tag is "bi-elliptic" exactly when the best bi-elliptic candidate is strictly
cheaper than Hohmann; otherwise (including exact ties) it is "hohmann". -/
theorem choose_transfer_le_hohmann (a1 a2 : ℝ) :
    (choose_transfer a1 a2).delta_v_kms ≤ hohmann_delta_v (R_EARTH + a1) (R_EARTH + a2) ∧
    ((choose_transfer a1 a2).method = "bi-elliptic" ↔
      min (bielliptic_delta_v (R_EARTH + a1) (R_EARTH + a2) (2 * max (R_EARTH + a1) (R_EARTH + a2)))
          (min (bielliptic_delta_v (R_EARTH + a1) (R_EARTH + a2) (5 * max (R_EARTH + a1) (R_EARTH + a2)))
            (bielliptic_delta_v (R_EARTH + a1) (R_EARTH + a2) (10 * max (R_EARTH + a1) (R_EARTH + a2)))) <
        hohmann_delta_v (R_EARTH + a1) (R_EARTH + a2)) ∧
    ((choose_transfer a1 a2).method = "hohmann" ↔
      ¬ min (bielliptic_delta_v (R_EARTH + a1) (R_EARTH + a2) (2 * max (R_EARTH + a1) (R_EARTH + a2)))
          (min (bielliptic_delta_v (R_EARTH + a1) (R_EARTH + a2) (5 * max (R_EARTH + a1) (R_EARTH + a2)))
            (bielliptic_delta_v (R_EARTH + a1) (R_EARTH + a2) (10 * max (R_EARTH + a1) (R_EARTH + a2)))) <
        hohmann_delta_v (R_EARTH + a1) (R_EARTH + a2)) := by
  refine ⟨?_, ?_, ?_⟩
  · rw [choose_transfer_delta_eq]
    exact min_le_left _ _
  · rw [choose_transfer_method_eq]
    split_ifs with hlt
    · simp [hlt]
    · simp [hlt]
  · rw [choose_transfer_method_eq]
    split_ifs with hlt
    · simp [hlt]
    · simp [hlt]

theorem sqrt_first_burn_lt (r m : ℝ) (hr : 0 < r) (hm : 1 < m) :
    Real.sqrt (MU_EARTH / r) < Real.sqrt (2 * MU_EARTH * (m * r) / (r * (r + m * r))) := by
  have hmu : (0 : ℝ) < MU_EARTH := by norm_num [MU_EARTH]
  have hm0 : (0 : ℝ) < m := by linarith
  have hden : 0 < r * (r + m * r) := by nlinarith [mul_pos hr hr, mul_pos hr (mul_pos hm0 hr)]
  apply Real.sqrt_lt_sqrt (le_of_lt (div_pos hmu hr))
  rw [div_lt_div_iff₀ hr hden]
  nlinarith [mul_pos (mul_pos hmu (mul_pos hr hr)) (sub_pos.mpr hm)]

theorem bielliptic_same_radii_pos (r m : ℝ) (hr : 0 < r) (hm : 1 < m) :
    0 < bielliptic_delta_v r r (m * r) := by
  unfold bielliptic_delta_v orbital_velocity
  have h1 : 0 < |Real.sqrt (2 * MU_EARTH * (m * r) / (r * (r + m * r))) -
      Real.sqrt (MU_EARTH / r)| :=
    abs_pos.mpr (ne_of_gt (sub_pos.mpr (sqrt_first_burn_lt r m hr hm)))
  have h2 : |Real.sqrt (2 * MU_EARTH * r / (m * r * (r + m * r))) -
      Real.sqrt (2 * MU_EARTH * r / (m * r * (r + m * r)))| = 0 := by
    rw [sub_self, abs_zero]
  have h3 : 0 ≤ |Real.sqrt (MU_EARTH / r) -
      Real.sqrt (2 * MU_EARTH * (m * r) / (r * (r + m * r)))| := abs_nonneg _
  linarith

theorem hohmann_self_eq_zero (r : ℝ) (hr : 0 < r) : hohmann_delta_v r r = 0 := by
  have hne : r ≠ 0 := ne_of_gt hr
  unfold hohmann_delta_v orbital_velocity
  have harg : 2 * MU_EARTH * r / (r * (r + r)) = MU_EARTH / r := by
    field_simp
    ring
  rw [harg]
  simp

/-- Counterexample to C6 as stated: at equal radii 6871 km (altitude 500 km),
the bi-elliptic cost through the selector's first candidate apoapsis
`2 * max r1 r2` is not zero. -/
theorem bielliptic_equal_radii_ne_zero :
    bielliptic_delta_v (R_EARTH + 500) (R_EARTH + 500)
      (2 * max (R_EARTH + 500) (R_EARTH + 500)) ≠ 0 := by
  rw [max_self]
  exact ne_of_gt (bielliptic_same_radii_pos (R_EARTH + 500) 2 (by norm_num [R_EARTH])
    (by norm_num))

/-- C6 (amended): at equal radii the Hohmann cost is zero and the selector
returns zero cost with method "hohmann"; the bi-elliptic candidate costs are
strictly positive (not zero) but are never selected; no division by zero
occurs since no denominator is `r1 - r2`. -/
theorem equal_radii_zero_cost (a : ℝ) (hpos : 0 < R_EARTH + a) :
    hohmann_delta_v (R_EARTH + a) (R_EARTH + a) = 0 ∧
    (∀ dv ∈ bielliptic_candidates (R_EARTH + a) (R_EARTH + a), 0 < dv) ∧
    (choose_transfer a a).delta_v_kms = 0 ∧
    (choose_transfer a a).method = "hohmann" := by
  have hH : hohmann_delta_v (R_EARTH + a) (R_EARTH + a) = 0 := hohmann_self_eq_zero _ hpos
  have hb2 : 0 < bielliptic_delta_v (R_EARTH + a) (R_EARTH + a) (2 * (R_EARTH + a)) :=
    bielliptic_same_radii_pos _ 2 hpos (by norm_num)
  have hb5 : 0 < bielliptic_delta_v (R_EARTH + a) (R_EARTH + a) (5 * (R_EARTH + a)) :=
    bielliptic_same_radii_pos _ 5 hpos (by norm_num)
  have hb10 : 0 < bielliptic_delta_v (R_EARTH + a) (R_EARTH + a) (10 * (R_EARTH + a)) :=
    bielliptic_same_radii_pos _ 10 hpos (by norm_num)
  have hB : 0 < min (bielliptic_delta_v (R_EARTH + a) (R_EARTH + a) (2 * (R_EARTH + a)))
      (min (bielliptic_delta_v (R_EARTH + a) (R_EARTH + a) (5 * (R_EARTH + a)))
        (bielliptic_delta_v (R_EARTH + a) (R_EARTH + a) (10 * (R_EARTH + a)))) :=
    lt_min hb2 (lt_min hb5 hb10)
  refine ⟨hH, ?_, ?_, ?_⟩
  · intro dv hdv
    simp only [bielliptic_candidates, max_self, List.map_cons, List.map_nil, List.mem_cons,
      List.not_mem_nil, or_false] at hdv
    rcases hdv with h | h | h
    · rw [h]; exact hb2
    · rw [h]; exact hb5
    · rw [h]; exact hb10
  · rw [choose_transfer_delta_eq, max_self, hH]
    exact min_eq_left (le_of_lt hB)
  · rw [choose_transfer_method_eq, max_self, hH]
    rw [if_neg (not_lt.mpr (le_of_lt hB))]

/-- Witness for the amended C6 at altitude 500 km (radius 6871 km). -/
theorem equal_radii_zero_cost_witness :
    (0 : ℝ) < R_EARTH + 500 ∧
      (hohmann_delta_v (R_EARTH + 500) (R_EARTH + 500) = 0 ∧
        (∀ dv ∈ bielliptic_candidates (R_EARTH + 500) (R_EARTH + 500), 0 < dv) ∧
        (choose_transfer 500 500).delta_v_kms = 0 ∧
        (choose_transfer 500 500).method = "hohmann") :=
  ⟨by norm_num [R_EARTH], equal_radii_zero_cost 500 (by norm_num [R_EARTH])⟩

/-- Counterexample to C3 as stated: for an LTAN shift of +12 hours
(180 degrees) the normalized delta is -180 degrees, which lies outside the
claimed half-open interval (-180, 180]. -/
theorem normalized_delta_twelve_hours_eq_neg_180 :
    normalized_ltan_delta 0 12 = -180 ∧ ¬ (-180 : ℝ) < normalized_ltan_delta 0 12 := by
  have h : normalized_ltan_delta 0 12 = -180 := by
    unfold normalized_ltan_delta pymod
    norm_num
  refine ⟨h, ?_⟩
  rw [h]
  norm_num

/-- C3 (amended): the LTAN difference (target - initial, hours) is converted
to degrees at 15 deg/hour and normalized by modulo arithmetic into the
half-open interval [-180, 180) — a congruent angle the short way around, with
a 180-degree difference mapped to -180 — and the required drift rate equals
the normalized delta divided by the duration in days. -/
theorem normalized_delta_range_and_rate (ti tf dur : ℝ) :
    -180 ≤ normalized_ltan_delta ti tf ∧
    normalized_ltan_delta ti tf < 180 ∧
    (∃ k : ℤ, (tf - ti) * 15 - normalized_ltan_delta ti tf = 360 * k) ∧
    required_drift_rate ti tf dur = normalized_ltan_delta ti tf / dur := by
  have h0 := pymod_nonneg ((tf - ti) * 15 + 180) 360 (by norm_num)
  have h1 := pymod_lt ((tf - ti) * 15 + 180) 360 (by norm_num)
  refine ⟨?_, ?_, ?_, rfl⟩
  · unfold normalized_ltan_delta
    linarith
  · unfold normalized_ltan_delta
    linarith
  · refine ⟨⌊((tf - ti) * 15 + 180) / 360⌋, ?_⟩
    unfold normalized_ltan_delta pymod
    ring

theorem ltan_step_infeasible (ia rate dur : ℝ) (best : Option LTANSolution) (x : ℕ)
    (hf : ¬ |cos_i_at rate (x : ℝ)| ≤ 1) : ltan_step ia rate dur best x = best := by
  unfold ltan_step
  rw [if_neg hf]

theorem ltan_step_none (ia rate dur : ℝ) (x : ℕ) (hf : |cos_i_at rate (x : ℝ)| ≤ 1) :
    ltan_step ia rate dur none x = some (mkLTANSolution ia rate dur x) := by
  unfold ltan_step
  rw [if_pos hf]

theorem ltan_step_some_lt (ia rate dur : ℝ) (b : LTANSolution) (x : ℕ)
    (hf : |cos_i_at rate (x : ℝ)| ≤ 1)
    (hc : candidate_cost ia rate x < b.total_delta_v_kms) :
    ltan_step ia rate dur (some b) x = some (mkLTANSolution ia rate dur x) := by
  unfold ltan_step
  rw [if_pos hf]
  simp only [hc, if_true]

theorem ltan_step_some_ge (ia rate dur : ℝ) (b : LTANSolution) (x : ℕ)
    (hf : |cos_i_at rate (x : ℝ)| ≤ 1)
    (hc : ¬ candidate_cost ia rate x < b.total_delta_v_kms) :
    ltan_step ia rate dur (some b) x = some b := by
  unfold ltan_step
  rw [if_pos hf]
  simp only [hc, if_false]

theorem ltan_step_eq_none_iff (ia rate dur : ℝ) (acc : Option LTANSolution) (x : ℕ) :
    ltan_step ia rate dur acc x = none ↔
      acc = none ∧ ¬ |cos_i_at rate (x : ℝ)| ≤ 1 := by
  by_cases hf : |cos_i_at rate (x : ℝ)| ≤ 1
  · cases acc with
    | none => rw [ltan_step_none ia rate dur x hf]; simp [hf]
    | some b =>
      by_cases hc : candidate_cost ia rate x < b.total_delta_v_kms
      · rw [ltan_step_some_lt ia rate dur b x hf hc]; simp [hf]
      · rw [ltan_step_some_ge ia rate dur b x hf hc]; simp [hf]
  · rw [ltan_step_infeasible ia rate dur acc x hf]
    simp [hf]

theorem ltan_foldl_none_iff (ia rate dur : ℝ) :
    ∀ (L : List ℕ) (acc : Option LTANSolution),
      L.foldl (ltan_step ia rate dur) acc = none ↔
        acc = none ∧ ∀ h ∈ L, ¬ |cos_i_at rate (h : ℝ)| ≤ 1 := by
  intro L
  induction L with
  | nil => intro acc; simp
  | cons x t ih =>
    intro acc
    rw [List.foldl_cons, ih, ltan_step_eq_none_iff]
    constructor
    · rintro ⟨⟨ha, hx⟩, ht⟩
      refine ⟨ha, ?_⟩
      intro h hm
      rcases List.mem_cons.mp hm with he | hmt
      · rw [he]; exact hx
      · exact ht h hmt
    · rintro ⟨ha, hall⟩
      exact ⟨⟨ha, hall x (List.mem_cons_self x t)⟩,
        fun h hmt => hall h (List.mem_cons_of_mem x hmt)⟩

/-- C2: for nonzero duration, the solver returns `none` ("no solution", a
value, not an exception) exactly when no grid altitude yields `|cos_i| <= 1`;
an infeasible candidate leaves the loop state unchanged (it is skipped, the
search is not aborted). -/
theorem ltan_none_iff_no_feasible (ti tf ia dur : ℝ) (hdur : dur ≠ 0) :
    (ltan_drift_adjustment ti tf ia dur = none ↔
      ∀ h ∈ ltan_grid, ¬ |cos_i_at (required_drift_rate ti tf dur) (h : ℝ)| ≤ 1) ∧
    ∀ (best : Option LTANSolution) (h : ℕ),
      ¬ |cos_i_at (required_drift_rate ti tf dur) (h : ℝ)| ≤ 1 →
        ltan_step ia (required_drift_rate ti tf dur) dur best h = best := by
  constructor
  · unfold ltan_drift_adjustment
    rw [ltan_foldl_none_iff]
    simp
  · intro best h hinf
    exact ltan_step_infeasible _ _ _ best h hinf

/-- Witness for C2 at LTAN 9 h to 6 h, altitude 500 km, duration 90 days. -/
theorem ltan_none_iff_no_feasible_witness :
    (90 : ℝ) ≠ 0 ∧
      ((ltan_drift_adjustment 9 6 500 90 = none ↔
        ∀ h ∈ ltan_grid, ¬ |cos_i_at (required_drift_rate 9 6 90) (h : ℝ)| ≤ 1) ∧
      ∀ (best : Option LTANSolution) (h : ℕ),
        ¬ |cos_i_at (required_drift_rate 9 6 90) (h : ℝ)| ≤ 1 →
          ltan_step 500 (required_drift_rate 9 6 90) 90 best h = best) :=
  ⟨by norm_num, ltan_none_iff_no_feasible 9 6 500 90 (by norm_num)⟩

theorem ltan_step_decreases (ia rate dur : ℝ) (a : LTANSolution) (x : ℕ) :
    ∃ a2, ltan_step ia rate dur (some a) x = some a2 ∧
      a2.total_delta_v_kms ≤ a.total_delta_v_kms := by
  by_cases hf : |cos_i_at rate (x : ℝ)| ≤ 1
  · by_cases hc : candidate_cost ia rate x < a.total_delta_v_kms
    · exact ⟨mkLTANSolution ia rate dur x, ltan_step_some_lt ia rate dur a x hf hc, hc.le⟩
    · exact ⟨a, ltan_step_some_ge ia rate dur a x hf hc, le_refl _⟩
  · exact ⟨a, ltan_step_infeasible ia rate dur (some a) x hf, le_refl _⟩

theorem ltan_step_le_cost (ia rate dur : ℝ) (acc : Option LTANSolution) (x : ℕ)
    (hf : |cos_i_at rate (x : ℝ)| ≤ 1) :
    ∃ a2, ltan_step ia rate dur acc x = some a2 ∧
      a2.total_delta_v_kms ≤ candidate_cost ia rate x := by
  cases acc with
  | none => exact ⟨mkLTANSolution ia rate dur x, ltan_step_none ia rate dur x hf, le_refl _⟩
  | some b =>
    by_cases hc : candidate_cost ia rate x < b.total_delta_v_kms
    · exact ⟨mkLTANSolution ia rate dur x, ltan_step_some_lt ia rate dur b x hf hc, le_refl _⟩
    · exact ⟨b, ltan_step_some_ge ia rate dur b x hf hc, not_lt.mp hc⟩

theorem ltan_foldl_min (ia rate dur : ℝ) :
    ∀ (L : List ℕ) (acc : Option LTANSolution),
      (∀ a, acc = some a → ∃ r, L.foldl (ltan_step ia rate dur) acc = some r ∧
        r.total_delta_v_kms ≤ a.total_delta_v_kms) ∧
      (∀ h ∈ L, |cos_i_at rate (h : ℝ)| ≤ 1 →
        ∃ r, L.foldl (ltan_step ia rate dur) acc = some r ∧
          r.total_delta_v_kms ≤ candidate_cost ia rate h) := by
  intro L
  induction L with
  | nil =>
    intro acc
    refine ⟨fun a ha => ⟨a, ha, le_refl _⟩, ?_⟩
    intro h hm
    simp at hm
  | cons x t ih =>
    intro acc
    constructor
    · intro a ha
      rw [ha]
      rcases ltan_step_decreases ia rate dur a x with ⟨a2, he, hle⟩
      rw [List.foldl_cons, he]
      rcases (ih (some a2)).1 a2 rfl with ⟨r, hr, hrle⟩
      exact ⟨r, hr, le_trans hrle hle⟩
    · intro h hm hfeas
      rcases List.mem_cons.mp hm with he | hmt
      · rcases ltan_step_le_cost ia rate dur acc x (he ▸ hfeas) with ⟨a2, he2, hle⟩
        rw [List.foldl_cons, he2]
        rcases (ih (some a2)).1 a2 rfl with ⟨r, hr, hrle⟩
        exact ⟨r, hr, le_trans hrle (he ▸ hle)⟩
      · rw [List.foldl_cons]
        exact (ih (ltan_step ia rate dur acc x)).2 h hmt hfeas

theorem ltan_foldl_sound (ia rate dur : ℝ) (S : List ℕ) :
    ∀ (L : List ℕ), (∀ h ∈ L, h ∈ S) → ∀ (acc : Option LTANSolution),
      (acc = none ∨ ∃ h0 ∈ S, |cos_i_at rate (h0 : ℝ)| ≤ 1 ∧
        acc = some (mkLTANSolution ia rate dur h0)) →
      (L.foldl (ltan_step ia rate dur) acc = none ∨
        ∃ h0 ∈ S, |cos_i_at rate (h0 : ℝ)| ≤ 1 ∧
          L.foldl (ltan_step ia rate dur) acc = some (mkLTANSolution ia rate dur h0)) := by
  intro L
  induction L with
  | nil => intro _ acc hacc; exact hacc
  | cons x t ih =>
    intro hsub acc hacc
    rw [List.foldl_cons]
    apply ih (fun h hm => hsub h (List.mem_cons_of_mem x hm))
    by_cases hf : |cos_i_at rate (x : ℝ)| ≤ 1
    · rcases hacc with hnone | ⟨h0, hmem, hfeas0, hsome⟩
      · rw [hnone, ltan_step_none ia rate dur x hf]
        exact Or.inr ⟨x, hsub x (List.mem_cons_self x t), hf, rfl⟩
      · rw [hsome]
        by_cases hc : candidate_cost ia rate x <
            (mkLTANSolution ia rate dur h0).total_delta_v_kms
        · rw [ltan_step_some_lt ia rate dur _ x hf hc]
          exact Or.inr ⟨x, hsub x (List.mem_cons_self x t), hf, rfl⟩
        · rw [ltan_step_some_ge ia rate dur _ x hf hc]
          exact Or.inr ⟨h0, hmem, hfeas0, rfl⟩
    · rw [ltan_step_infeasible ia rate dur acc x hf]
      exact hacc

theorem mem_ltan_grid_iff (h : ℕ) : h ∈ ltan_grid ↔ 400 ≤ h ∧ h ≤ 895 ∧ h % 5 = 0 := by
  unfold ltan_grid
  rw [List.mem_range']
  constructor
  · rintro ⟨i, hi, rfl⟩
    omega
  · rintro ⟨hlo, hhi, hmod⟩
    exact ⟨(h - 400) / 5, by omega, by omega⟩

/-- C1: the candidate grid is exactly the altitudes 400..895 km in 5 km steps,
and any returned solution is a feasible grid candidate whose total delta-v is
the candidate cost (Hohmann from the initial radius plus the plane change to
`arccos cos_i` relative to 98.6 degrees) and is the global minimum of that
cost over all feasible grid candidates. -/
theorem ltan_returns_global_min (ti tf ia dur : ℝ) (hdur : dur ≠ 0) :
    (∀ h : ℕ, h ∈ ltan_grid ↔ 400 ≤ h ∧ h ≤ 895 ∧ h % 5 = 0) ∧
    (ltan_drift_adjustment ti tf ia dur).elim True (fun sol =>
      sol.new_altitude_km ∈ ltan_grid ∧
      |cos_i_at (required_drift_rate ti tf dur) (sol.new_altitude_km : ℝ)| ≤ 1 ∧
      sol.total_delta_v_kms =
        candidate_cost ia (required_drift_rate ti tf dur) sol.new_altitude_km ∧
      ∀ h ∈ ltan_grid, |cos_i_at (required_drift_rate ti tf dur) (h : ℝ)| ≤ 1 →
        sol.total_delta_v_kms ≤ candidate_cost ia (required_drift_rate ti tf dur) h) := by
  refine ⟨mem_ltan_grid_iff, ?_⟩
  cases hres : ltan_drift_adjustment ti tf ia dur with
  | none => exact trivial
  | some sol =>
    simp only [Option.elim]
    have hfold : ltan_grid.foldl
        (ltan_step ia (required_drift_rate ti tf dur) dur) none = some sol := by
      rw [← hres]
      rfl
    have hsound := ltan_foldl_sound ia (required_drift_rate ti tf dur) dur ltan_grid
      ltan_grid (fun h hm => hm) none (Or.inl rfl)
    rcases hsound with hn | ⟨h0, hmem, hfeas, heq⟩
    · rw [hfold] at hn
      exact Option.noConfusion hn
    · rw [hfold] at heq
      have hsol := Option.some.inj heq
      rw [hsol]
      refine ⟨hmem, hfeas, rfl, ?_⟩
      intro h hm hf
      rcases (ltan_foldl_min ia (required_drift_rate ti tf dur) dur ltan_grid none).2
          h hm hf with ⟨r, hrfold, hrle⟩
      rw [hfold] at hrfold
      have hr := Option.some.inj hrfold
      rw [hsol] at hr
      rw [← hr] at hrle
      exact hrle

/-- Witness for C1 at LTAN 9 h to 6 h, altitude 500 km, duration 90 days. -/
theorem ltan_returns_global_min_witness :
    (90 : ℝ) ≠ 0 ∧
      ((∀ h : ℕ, h ∈ ltan_grid ↔ 400 ≤ h ∧ h ≤ 895 ∧ h % 5 = 0) ∧
      (ltan_drift_adjustment 9 6 500 90).elim True (fun sol =>
        sol.new_altitude_km ∈ ltan_grid ∧
        |cos_i_at (required_drift_rate 9 6 90) (sol.new_altitude_km : ℝ)| ≤ 1 ∧
        sol.total_delta_v_kms =
          candidate_cost 500 (required_drift_rate 9 6 90) sol.new_altitude_km ∧
        ∀ h ∈ ltan_grid, |cos_i_at (required_drift_rate 9 6 90) (h : ℝ)| ≤ 1 →
          sol.total_delta_v_kms ≤ candidate_cost 500 (required_drift_rate 9 6 90) h)) :=
  ⟨by norm_num, ltan_returns_global_min 9 6 500 90 (by norm_num)⟩

theorem degrees_arccos_bounds (c : ℝ) :
    0 ≤ degrees (Real.arccos c) ∧ degrees (Real.arccos c) ≤ 180 := by
  have h0 := Real.arccos_nonneg c
  have h1 := Real.arccos_le_pi c
  have hpi := Real.pi_pos
  constructor
  · unfold degrees
    exact mul_nonneg h0 (by positivity)
  · unfold degrees
    have hstep : Real.arccos c * (180 / π) ≤ π * (180 / π) :=
      mul_le_mul_of_nonneg_right h1 (by positivity)
    have hval : π * (180 / π) = 180 := by
      field_simp
    linarith

theorem radians_degrees_id (x : ℝ) : radians (degrees x) = x := by
  have hpi := Real.pi_ne_zero
  unfold radians degrees
  field_simp

theorem candidate_cost_nonneg (ia rate : ℝ) (h : ℕ) : 0 ≤ candidate_cost ia rate h := by
  have hpi := Real.pi_pos
  have h1 : 0 ≤ hohmann_delta_v (R_EARTH + ia) (R_EARTH + (h : ℝ)) := by
    unfold hohmann_delta_v
    positivity
  have h2 : 0 ≤ inclination_change_delta_v (h : ℝ)
      (degrees |Real.arccos (cos_i_at rate (h : ℝ)) - radians 98.6|) := by
    unfold inclination_change_delta_v
    rw [radians_degrees_id]
    have ha0 := Real.arccos_nonneg (cos_i_at rate (h : ℝ))
    have ha1 := Real.arccos_le_pi (cos_i_at rate (h : ℝ))
    have hr0 : 0 ≤ radians 98.6 := by
      unfold radians
      positivity
    have hr1 : radians 98.6 ≤ π := by
      unfold radians
      linarith
    have hxpi : |Real.arccos (cos_i_at rate (h : ℝ)) - radians 98.6| ≤ π :=
      abs_le.mpr ⟨by linarith, by linarith⟩
    have hx0 : (0 : ℝ) ≤ |Real.arccos (cos_i_at rate (h : ℝ)) - radians 98.6| := abs_nonneg _
    have hs : 0 ≤ Real.sin (|Real.arccos (cos_i_at rate (h : ℝ)) - radians 98.6| / 2) :=
      Real.sin_nonneg_of_nonneg_of_le_pi (by linarith) (by linarith)
    have hv : 0 ≤ orbital_velocity (R_EARTH + (h : ℝ)) := Real.sqrt_nonneg _
    have := mul_nonneg (mul_nonneg (by norm_num : (0:ℝ) ≤ 2) hv) hs
    exact this
  unfold candidate_cost
  linarith

/-- C10: every solution returned by the LTAN solver has an inclination between
0 and 180 degrees (it is an arccosine converted to degrees) and a nonnegative
total delta-v (a sum of absolute burn terms plus a nonnegative plane change). -/
theorem ltan_solution_invariants (ti tf ia dur : ℝ) :
    (ltan_drift_adjustment ti tf ia dur).elim True (fun sol =>
      0 ≤ sol.new_inclination_deg ∧ sol.new_inclination_deg ≤ 180 ∧
      0 ≤ sol.total_delta_v_kms) := by
  cases hres : ltan_drift_adjustment ti tf ia dur with
  | none => exact trivial
  | some sol =>
    simp only [Option.elim]
    have hfold : ltan_grid.foldl
        (ltan_step ia (required_drift_rate ti tf dur) dur) none = some sol := by
      rw [← hres]
      rfl
    have hsound := ltan_foldl_sound ia (required_drift_rate ti tf dur) dur ltan_grid
      ltan_grid (fun h hm => hm) none (Or.inl rfl)
    rcases hsound with hn | ⟨h0, hmem, hfeas, heq⟩
    · rw [hfold] at hn
      exact Option.noConfusion hn
    · rw [hfold] at heq
      have hsol := Option.some.inj heq
      rw [hsol]
      exact ⟨(degrees_arccos_bounds _).1, (degrees_arccos_bounds _).2,
        candidate_cost_nonneg _ _ _⟩
